import Mathlib

/-!
Shallow embedding of the core of the 8086 Visual Emulator (JavaScript):
the register file (`src/engine/registers.js`), flat memory
(`src/engine/memory.js`), the ALU (`src/engine/alu.js`, full revision),
the CPU fetch/decode/execute loop (`src/engine/cpu.js`) and the two-pass
assembler (`src/assembler/*.js`).

JavaScript numbers are modelled as `Nat` where the source only handles
unsigned values, and as `Int` where the source can produce negative
intermediate values.  The JS coercions are made explicit:
`x & 0xFF` on an unsigned value becomes `x % 256`, `x & 0xFFFF` becomes
`x % 65536`, `x >>> 0` becomes `x % 4294967296`, and `x & 0xFFFF` on a
possibly-negative 32-bit value becomes `Int.emod x 65536`.
-/

/-- ToInt32: JavaScript coercion of a number to a signed 32-bit integer,
as performed by the bitwise operators (`|`, `<<`, `>>`). -/
def jsToInt32 (x : Int) : Int :=
  (x + 2147483648) % 4294967296 - 2147483648

/-- ToUint16 as performed by `DataView.setUint16` and by `x & 0xFFFF`
on a possibly-negative 32-bit value: the result is the low 16 bits,
read as an unsigned number. -/
def jsToUint16 (x : Int) : Nat :=
  (x % 65536).toNat

/-- `x & 0xFF` on a possibly-negative 32-bit value. -/
def jsToUint8 (x : Int) : Nat :=
  (x % 256).toNat

/-!
## Register file — `src/engine/registers.js`

The source stores the fourteen 16-bit registers in a 28-byte
`ArrayBuffer` accessed through a little-endian `DataView`.  The buffer is
modelled as a function from byte offset to byte value.
-/

/-- The 28-byte register buffer (`this.buffer` / `this.view`): a byte at
every offset.  Offsets ≥ 28 are unused. -/
def RegState := Nat → Nat

-- Flag bit positions (`FLAGS` in registers.js).
namespace FLAGS
def CF : Nat := 0
def PF : Nat := 2
def AF : Nat := 4
def ZF : Nat := 6
def SF : Nat := 7
def TF : Nat := 8
def IF : Nat := 9
def DF : Nat := 10
def OF : Nat := 11
end FLAGS

/-- `this.map`: register name to byte offset in the buffer.  An unknown
name yields offset 0, matching `DataView`'s ToIndex(undefined) = 0.
The source upper-cases the name first; every call site already passes
an upper-case name. -/
def regMap (name : String) : Nat :=
  match name with
  | "AX" => 0 | "CX" => 2 | "DX" => 4 | "BX" => 6
  | "SP" => 8 | "BP" => 10 | "SI" => 12 | "DI" => 14
  | "ES" => 16 | "CS" => 18 | "SS" => 20 | "DS" => 22
  | "IP" => 24 | "FLAGS" => 26
  | _ => 0

/-- `get16(name)`: little-endian 16-bit read
(`view.getUint16(offset, true)` = low byte + 256 * high byte). -/
def get16 (r : RegState) (name : String) : Nat :=
  r (regMap name) + 256 * r (regMap name + 1)

/-- `set16(name, value)`: `view.setUint16(offset, value & 0xFFFF, true)`.
The value is reduced to 16 bits and stored as two little-endian bytes. -/
def set16 (r : RegState) (name : String) (value : Int) : RegState :=
  let m := jsToUint16 value
  fun i =>
    if i = regMap name then m % 256
    else if i = regMap name + 1 then m / 256
    else r i

/-- Byte offset used by `get8`/`set8`: the base of the paired 16-bit
register (`map[reg[0] + 'X']`) plus 0 for an `L` half, 1 for an `H`
half.  The composite map is spelled out per name. -/
def reg8Offset (name : String) : Nat :=
  match name with
  | "AL" => 0 | "AH" => 1
  | "CL" => 2 | "CH" => 3
  | "DL" => 4 | "DH" => 5
  | "BL" => 6 | "BH" => 7
  | _ => 0

/-- `get8(name)`: single-byte read (`view.getUint8`). -/
def get8 (r : RegState) (name : String) : Nat :=
  r (reg8Offset name)

/-- `set8(name, value)`: `view.setUint8(base + offset, value & 0xFF)`. -/
def set8 (r : RegState) (name : String) (value : Int) : RegState :=
  fun i => if i = reg8Offset name then jsToUint8 value else r i

/-- `setFlag(flagBit, value)`: read FLAGS, set or clear one bit with
`|=` / `&= ~(1 << bit)` (32-bit JS bitwise ops), write FLAGS back. -/
def setFlag (r : RegState) (flagBit : Nat) (value : Bool) : RegState :=
  let currentFlags := get16 r "FLAGS"
  let newFlags :=
    if value then currentFlags ||| (1 <<< flagBit)
    else currentFlags &&& (4294967295 ^^^ (1 <<< flagBit))
  set16 r "FLAGS" newFlags

/-- `getFlag(flagBit)`: `(FLAGS >> bit) & 1`. -/
def getFlag (r : RegState) (flagBit : Nat) : Nat :=
  (get16 r "FLAGS" >>> flagBit) &&& 1

/-- `triggerInterrupt(type)`: the current version only rewinds IP by one
so that the state points back at the faulting instruction
(`set16('IP', get16('IP') - 1)`); the `console.warn` diagnostic has no
state effect. -/
def triggerInterrupt (r : RegState) (_type : Nat) : RegState :=
  set16 r "IP" ((get16 r "IP" : Int) - 1)

/-- A freshly constructed `Registers` object: the `ArrayBuffer` is
zero-initialised. -/
def regsInit : RegState := fun _ => 0

/-!
## Memory — `src/engine/memory.js`
-/

/-- The 1 MiB `Uint8Array` (`this.data`), as a function from address to
byte.  Addresses ≥ 2^20 are never used. -/
def Mem := Nat → Nat

/-- `getPhysicalAddress(segment, offset)` =
`(((segment & 0xFFFF) << 4) + (offset & 0xFFFF)) & 0xFFFFF`. -/
def getPhysicalAddress (segment offset : Nat) : Nat :=
  ((segment % 65536) * 16 + offset % 65536) % 1048576

/-- `readByte(seg, off)`. -/
def readByte (m : Mem) (seg off : Nat) : Nat :=
  m (getPhysicalAddress seg off)

/-- `writeByte(seg, off, value)`: stores `value & 0xFF`. -/
def writeByte (m : Mem) (seg off : Nat) (value : Nat) : Mem :=
  fun a => if a = getPhysicalAddress seg off then value % 256 else m a

/-- A freshly constructed `Memory` object: zero-filled. -/
def memInit : Mem := fun _ => 0

/-!
## ALU — `src/engine/alu.js` (full revision)

Each ALU method mutates the register file it holds (`this.registers`);
here every operation takes the register state and returns the new state,
paired with the JS return value where the source returns one.
-/

/-- The parity loop shared by the flag updaters: count the set bits of
the least-significant byte (`for (let i = 0; i < 8; i++) ...`). -/
def parityCount (byte : Nat) : Nat :=
  (List.range 8).foldl (fun cnt i => if byte &&& (1 <<< i) ≠ 0 then cnt + 1 else cnt) 0

/-- `_updateLogicalFlags(result)`: ZF, SF, PF from the result; CF and OF
left unchanged (full-revision behaviour). -/
def updateLogicalFlags (r : RegState) (result : Nat) : RegState :=
  let r := setFlag r FLAGS.ZF (result == 0)
  let r := setFlag r FLAGS.SF (result &&& 0x8000 != 0)
  setFlag r FLAGS.PF (parityCount (result % 256) % 2 == 0)

/-- `add16(val1, val2)`: 16-bit addition setting ZF, SF, CF, AF, OF, PF.
`(val1 + val2) >>> 0` is `% 2^32` on the non-negative sum. -/
def add16 (r : RegState) (val1 val2 : Nat) : RegState × Nat :=
  let full := (val1 + val2) % 4294967296
  let result := full % 65536
  let r := setFlag r FLAGS.ZF (result == 0)
  let r := setFlag r FLAGS.SF (result &&& 0x8000 != 0)
  let r := setFlag r FLAGS.CF (full > 0xFFFF)
  let af := ((val1 % 16) + (val2 % 16)) > 0xF
  let r := setFlag r FLAGS.AF af
  let of := (((val1 ^^^ result) &&& (val2 ^^^ result)) &&& 0x8000) ≠ 0
  let r := setFlag r FLAGS.OF (decide of)
  let r := setFlag r FLAGS.PF (parityCount (result % 256) % 2 == 0)
  (r, result)

/-- `sub16(val1, val2)`: 16-bit subtraction setting ZF, SF, CF, AF, OF,
PF.  `(val1 - val2) | 0` keeps the signed 32-bit difference and the
result is its low 16 bits (`& 0xFFFF`). -/
def sub16 (r : RegState) (val1 val2 : Nat) : RegState × Nat :=
  let full : Int := jsToInt32 ((val1 : Int) - (val2 : Int))
  let result := jsToUint16 full
  let r := setFlag r FLAGS.ZF (result == 0)
  let r := setFlag r FLAGS.SF (result &&& 0x8000 != 0)
  let r := setFlag r FLAGS.CF (val1 < val2)
  let r := setFlag r FLAGS.AF (val1 % 16 < val2 % 16)
  let of := (((val1 ^^^ val2) &&& (val1 ^^^ result)) &&& 0x8000) ≠ 0
  let r := setFlag r FLAGS.OF (decide of)
  let r := setFlag r FLAGS.PF (parityCount (result % 256) % 2 == 0)
  (r, result)

/-- `mul16(multiplier)`: unsigned multiply of AX, result in DX:AX,
CF = OF = (high word ≠ 0). -/
def mul16 (r : RegState) (multiplier : Nat) : RegState :=
  let ax := get16 r "AX"
  let result := ax * multiplier
  let lowWord := result % 65536
  let highWord := (result >>> 16) % 65536
  let r := set16 r "AX" lowWord
  let r := set16 r "DX" highWord
  let hasCarry := highWord ≠ 0
  let r := setFlag r FLAGS.CF (decide hasCarry)
  setFlag r FLAGS.OF (decide hasCarry)

/-- `div16(divisor)`: unsigned division of DX:AX.  A zero divisor
triggers interrupt 0; an overflowing quotient throws
`Error("Division Overflow")` (modelled as `Except.error`).
`((dx << 16) >>> 0) | ax` coerces the dividend through ToInt32, so a
DX with its top bit set yields a negative JS dividend. -/
def div16 (r : RegState) (divisor : Nat) : Except String RegState :=
  if divisor = 0 then
    .ok (triggerInterrupt r 0)
  else
    let dx := get16 r "DX"
    let ax := get16 r "AX"
    let dividend : Int := jsToInt32 (((dx <<< 16) ||| ax : Nat) : Int)
    let quotient : Int := Int.fdiv dividend (divisor : Int)
    let remainder : Int := Int.tmod dividend (divisor : Int)
    if quotient > 0xFFFF then
      .error "Division Overflow"
    else
      let r := set16 r "AX" quotient
      .ok (set16 r "DX" remainder)

/-- `inc16(val)`: increment; ZF, SF, OF, AF, PF set, CF untouched. -/
def inc16 (r : RegState) (val : Nat) : RegState × Nat :=
  let result := (val + 1) % 65536
  let r := setFlag r FLAGS.ZF (result == 0)
  let r := setFlag r FLAGS.SF (result &&& 0x8000 != 0)
  let r := setFlag r FLAGS.OF (val == 0x7FFF)
  let r := setFlag r FLAGS.AF ((val % 16) + 1 > 0xF)
  let r := setFlag r FLAGS.PF (parityCount (result % 256) % 2 == 0)
  (r, result)

/-- `dec16(val)`: decrement; ZF, SF, OF, AF, PF set, CF untouched.
`(val - 1) & 0xFFFF` wraps 0 to 0xFFFF. -/
def dec16 (r : RegState) (val : Nat) : RegState × Nat :=
  let result := jsToUint16 ((val : Int) - 1)
  let r := setFlag r FLAGS.ZF (result == 0)
  let r := setFlag r FLAGS.SF (result &&& 0x8000 != 0)
  let r := setFlag r FLAGS.OF (val == 0x8000)
  let r := setFlag r FLAGS.AF (val % 16 == 0)
  let r := setFlag r FLAGS.PF (parityCount (result % 256) % 2 == 0)
  (r, result)

/-- `cmp16(val1, val2)`: subtraction with the result discarded. -/
def cmp16 (r : RegState) (val1 val2 : Nat) : RegState :=
  (sub16 r val1 val2).1

/-- `neg16(val)`: two's-complement negation with CF, ZF, SF, AF, OF, PF. -/
def neg16 (r : RegState) (val : Nat) : RegState × Nat :=
  let result := jsToUint16 (0 - (val : Int))
  let r := setFlag r FLAGS.CF (val != 0)
  let r := setFlag r FLAGS.ZF (result == 0)
  let r := setFlag r FLAGS.SF (result &&& 0x8000 != 0)
  let r := setFlag r FLAGS.AF (val % 16 != 0)
  let r := setFlag r FLAGS.OF (val == 0x8000)
  let r := setFlag r FLAGS.PF (parityCount (result % 256) % 2 == 0)
  (r, result)

/-- Sign-extension of a 16-bit value, JS `(x << 16) >> 16`. -/
def signExtend16 (x : Nat) : Int :=
  Int.fdiv (jsToInt32 ((x : Int) * 65536)) 65536

/-- `imul16(multiplier)`: signed multiply of AX, result in DX:AX.
CF = OF unless the product sign-extends from its low word
(`result === (result << 16) >> 16` in 32-bit JS arithmetic). -/
def imul16 (r : RegState) (multiplier : Nat) : RegState :=
  let ax : Int := signExtend16 (get16 r "AX")
  let m : Int := signExtend16 multiplier
  let result : Int := ax * m
  let r := set16 r "AX" result
  let r := set16 r "DX" (Int.fdiv result 65536)
  let fits := result = Int.fdiv (jsToInt32 (result * 65536)) 65536
  let r := setFlag r FLAGS.CF (decide ¬fits)
  setFlag r FLAGS.OF (decide ¬fits)

/-- `idiv16(divisor)`: signed division of DX:AX.  Zero divisor and
out-of-range quotient both trigger interrupt 0.  `(dx << 16) | ax`
builds a signed 32-bit dividend. -/
def idiv16 (r : RegState) (divisor : Nat) : Except String RegState :=
  if divisor = 0 then
    .ok (triggerInterrupt r 0)
  else
    let dx := get16 r "DX"
    let ax := get16 r "AX"
    let dividend : Int := jsToInt32 (((dx <<< 16) ||| ax : Nat) : Int)
    let d : Int := signExtend16 divisor
    let quotient : Int := Int.tdiv dividend d
    let remainder : Int := Int.tmod dividend d
    if quotient > 32767 ∨ quotient < -32768 then
      .ok (triggerInterrupt r 0)
    else
      let r := set16 r "AX" quotient
      .ok (set16 r "DX" remainder)

/-- `and16(val1, val2)`. -/
def and16 (r : RegState) (val1 val2 : Nat) : RegState × Nat :=
  let result := (val1 &&& val2) % 65536
  (updateLogicalFlags r result, result)

/-- `or16(val1, val2)`. -/
def or16 (r : RegState) (val1 val2 : Nat) : RegState × Nat :=
  let result := (val1 ||| val2) % 65536
  (updateLogicalFlags r result, result)

/-- `xor16(val1, val2)`. -/
def xor16 (r : RegState) (val1 val2 : Nat) : RegState × Nat :=
  let result := (val1 ^^^ val2) % 65536
  (updateLogicalFlags r result, result)

/-- `test16(val1, val2)`: AND whose result is discarded. -/
def test16 (r : RegState) (val1 val2 : Nat) : RegState :=
  let result := (val1 &&& val2) % 65536
  updateLogicalFlags r result

/-- `not16(val)`: bitwise inversion, flags untouched.  JS `~val` on a
16-bit value followed by `& 0xFFFF`. -/
def not16 (val : Nat) : Nat :=
  jsToUint16 (-(val : Int) - 1)

/-- The `shl16` loop: count iterations, tracking the last bit shifted
out of bit 15. -/
def shlLoop (result lastBitOut count : Nat) : Nat × Nat :=
  match count with
  | 0 => (result, lastBitOut)
  | c + 1 => shlLoop ((result <<< 1) % 65536) ((result &&& 0x8000) >>> 15) c

/-- `shl16(val, count)`: a zero count returns the value untouched,
otherwise CF is the last bit shifted out and the logical flags follow. -/
def shl16 (r : RegState) (val count : Nat) : RegState × Nat :=
  if count = 0 then (r, val)
  else
    let (result, lastBitOut) := shlLoop val 0 count
    let r := setFlag r FLAGS.CF (lastBitOut == 1)
    (updateLogicalFlags r result, result)

/-- The `shr16` loop. -/
def shrLoop (result lastBitOut count : Nat) : Nat × Nat :=
  match count with
  | 0 => (result, lastBitOut)
  | c + 1 => shrLoop ((result >>> 1) % 65536) (result &&& 1) c

/-- `shr16(val, count)`. -/
def shr16 (r : RegState) (val count : Nat) : RegState × Nat :=
  if count = 0 then (r, val)
  else
    let (result, lastBitOut) := shrLoop val 0 count
    let r := setFlag r FLAGS.CF (lastBitOut == 1)
    (updateLogicalFlags r result, result)

/-- The `sar16` loop over a sign-extended signed value
(`result >> 1` is an arithmetic shift, i.e. floor division by 2). -/
def sarLoop (result : Int) (lastBitOut : Nat) (count : Nat) : Int × Nat :=
  match count with
  | 0 => (result, lastBitOut)
  | c + 1 => sarLoop (Int.fdiv result 2) (result.emod 2).toNat c

/-- `sar16(val, count)`: arithmetic right shift preserving the sign bit;
CF is the last bit shifted out and OF is cleared. -/
def sar16 (r : RegState) (val count : Nat) : RegState × Nat :=
  if count = 0 then (r, val % 65536)
  else
    let (res, lastBitOut) := sarLoop (signExtend16 val) 0 count
    let result := jsToUint16 res
    let r := setFlag r FLAGS.CF (lastBitOut == 1)
    let r := setFlag r FLAGS.OF false
    (updateLogicalFlags r result, result)

/-- The `rol16` loop: CF is set inside the loop on every iteration. -/
def rolLoop (r : RegState) (result count : Nat) : RegState × Nat :=
  match count with
  | 0 => (r, result)
  | c + 1 =>
    let msb := (result &&& 0x8000) >>> 15
    let result := ((result <<< 1) ||| msb) % 65536
    let r := setFlag r FLAGS.CF (msb == 1)
    rolLoop r result c

/-- `rol16(val, count)`: rotate left; ZF/SF/PF untouched. -/
def rol16 (r : RegState) (val count : Nat) : RegState × Nat :=
  rolLoop r val count

/-- The `ror16` loop. -/
def rorLoop (r : RegState) (result count : Nat) : RegState × Nat :=
  match count with
  | 0 => (r, result)
  | c + 1 =>
    let lsb := result &&& 1
    let result := ((result >>> 1) ||| (lsb <<< 15)) % 65536
    let r := setFlag r FLAGS.CF (lsb == 1)
    rorLoop r result c

/-- `ror16(val, count)`: rotate right; ZF/SF/PF untouched. -/
def ror16 (r : RegState) (val count : Nat) : RegState × Nat :=
  rorLoop r val count

/-!
## CPU — `src/engine/cpu.js` (full revision)
-/

/-- JS sign extension of a byte, `(x << 24) >> 24`. -/
def signExtend8 (x : Nat) : Int :=
  Int.fdiv (jsToInt32 ((x : Int) * 16777216)) 16777216

/-- The CPU objects: register file, memory and the halted flag.  (The
constructor creates exactly these three pieces of state — there is no
`lastError` or similar field.) -/
structure CPUState where
  regs : RegState
  mem : Mem
  halted : Bool

/-- The canonical word-register order used by every dispatch arm
(`['AX','CX','DX','BX','SP','BP','SI','DI']`). -/
def regNames : List String :=
  ["AX", "CX", "DX", "BX", "SP", "BP", "SI", "DI"]

/-- `new CPU()`: fresh registers and memory, `halted = false`, then
`CS` and `IP` are initialised to 0. -/
def cpuInit : CPUState :=
  { regs := set16 (set16 regsInit "CS" 0) "IP" 0
    mem := memInit
    halted := false }

/-- `fetchByte()`: read the byte at CS:IP and post-increment IP
(`set16` wraps IP modulo 2^16). -/
def fetchByte (c : CPUState) : Nat × CPUState :=
  let cs := get16 c.regs "CS"
  let ip := get16 c.regs "IP"
  let byte := readByte c.mem cs ip
  (byte, { c with regs := set16 c.regs "IP" ((ip : Int) + 1) })

/-- `fetchWord()`: two byte fetches assembled little-endian
(`(high << 8) | low`). -/
def fetchWord (c : CPUState) : Nat × CPUState :=
  let (low, c) := fetchByte c
  let (high, c) := fetchByte c
  ((high <<< 8) ||| low, c)

/-- `resolveEffectiveAddress(mod, rm)`: ModR/M effective-address
computation.  Returns the 16-bit offset and the default segment name,
consuming displacement bytes from the stream.
(`rm` is always in 0..7; the JS `switch` has no default, so an
out-of-range `rm` would leave `ea = 0` with segment DS.) -/
def resolveEffectiveAddress (c : CPUState) (md rm : Nat) :
    (Nat × String) × CPUState :=
  let (ea, defaultSegment, c) : Int × String × CPUState :=
    match rm with
    | 0 => ((get16 c.regs "BX" + get16 c.regs "SI" : Nat), "DS", c)
    | 1 => ((get16 c.regs "BX" + get16 c.regs "DI" : Nat), "DS", c)
    | 2 => ((get16 c.regs "BP" + get16 c.regs "SI" : Nat), "SS", c)
    | 3 => ((get16 c.regs "BP" + get16 c.regs "DI" : Nat), "SS", c)
    | 4 => ((get16 c.regs "SI" : Nat), "DS", c)
    | 5 => ((get16 c.regs "DI" : Nat), "DS", c)
    | 6 =>
      if md = 0 then
        let (w, c) := fetchWord c
        ((w : Nat), "DS", c)
      else
        ((get16 c.regs "BP" : Nat), "SS", c)
    | 7 => ((get16 c.regs "BX" : Nat), "DS", c)
    | _ => (0, "DS", c)
  let (ea, c) : Int × CPUState :=
    if md = 1 then
      let (b, c) := fetchByte c
      (ea + signExtend8 b, c)
    else if md = 2 then
      let (w, c) := fetchWord c
      (ea + (w : Nat), c)
    else (ea, c)
  ((jsToUint16 ea, defaultSegment), c)

/-- `push16(value)`: decrement SP by 2 (wrapping), then store the word
little-endian at SS:SP. -/
def push16 (c : CPUState) (value : Nat) : CPUState :=
  let sp := get16 c.regs "SP"
  let ss := get16 c.regs "SS"
  let sp := jsToUint16 ((sp : Int) - 2)
  let regs := set16 c.regs "SP" sp
  let mem := writeByte c.mem ss sp (value % 256)
  let mem := writeByte mem ss (sp + 1) ((value >>> 8) % 256)
  { c with regs := regs, mem := mem }

/-- `pop16()`: read the word little-endian at SS:SP, then increment SP
by 2 (wrapping).  Returns the value read. -/
def pop16 (c : CPUState) : Nat × CPUState :=
  let sp := get16 c.regs "SP"
  let ss := get16 c.regs "SS"
  let low := readByte c.mem ss sp
  let high := readByte c.mem ss (sp + 1)
  let value := (high <<< 8) ||| low
  (value, { c with regs := set16 c.regs "SP" ((sp + 2 : Nat) % 65536) })

/-- `_writeBack16(mod, rm, regName, offset, segment, value)`: write a
16-bit result to a register (mod = 3) or to memory little-endian. -/
def writeBack16 (c : CPUState) (md _rm : Nat) (regName : String)
    (offset : Nat) (segment : String) (value : Nat) : CPUState :=
  if md = 3 then
    { c with regs := set16 c.regs regName value }
  else
    let segVal := get16 c.regs segment
    let mem := writeByte c.mem segVal offset (value % 256)
    let mem := writeByte mem segVal (offset + 1) ((value >>> 8) % 256)
    { c with mem := mem }

/-- The inner `switch (extension)` of the 0xD1/0xD3 shift/rotate arm:
apply the selected ALU operation and write the result back.  Extensions
2 and 3 name `this.alu.rcl16` / `this.alu.rcr16`, which do not exist on
the ALU — the JS call throws a `TypeError`.  Extension 6 logs an error
and leaves `result` undefined, so nothing is written back. -/
def shiftRotateOp (c : CPUState) (operand md rm : Nat) (offset : Nat)
    (segment : String) (ext count : Nat) : Except String CPUState :=
  match ext with
  | 0 =>
    let (r, result) := rol16 c.regs operand count
    .ok (writeBack16 { c with regs := r } md rm (regNames.getD rm "") offset segment result)
  | 1 =>
    let (r, result) := ror16 c.regs operand count
    .ok (writeBack16 { c with regs := r } md rm (regNames.getD rm "") offset segment result)
  | 2 => .error "TypeError: this.alu.rcl16 is not a function"
  | 3 => .error "TypeError: this.alu.rcr16 is not a function"
  | 4 =>
    let (r, result) := shl16 c.regs operand count
    .ok (writeBack16 { c with regs := r } md rm (regNames.getD rm "") offset segment result)
  | 5 =>
    let (r, result) := shr16 c.regs operand count
    .ok (writeBack16 { c with regs := r } md rm (regNames.getD rm "") offset segment result)
  | 7 =>
    let (r, result) := sar16 c.regs operand count
    .ok (writeBack16 { c with regs := r } md rm (regNames.getD rm "") offset segment result)
  | _ => .ok c

/-- The inner `switch (extension)` of the 0xF7 group-3 arm. -/
def group3Op (c : CPUState) (operand md rm : Nat) (offset : Nat)
    (segment : String) (ext : Nat) : Except String CPUState :=
  match ext with
  | 0 =>
    let (imm, c) := fetchWord c
    .ok { c with regs := test16 c.regs operand imm }
  | 2 =>
    let notRes := not16 operand
    .ok (writeBack16 c md rm (regNames.getD rm "") offset segment notRes)
  | 3 =>
    let (r, negRes) := neg16 c.regs operand
    .ok (writeBack16 { c with regs := r } md rm (regNames.getD rm "") offset segment negRes)
  | 4 => .ok { c with regs := mul16 c.regs operand }
  | 5 => .ok { c with regs := imul16 c.regs operand }
  | 6 => (div16 c.regs operand).map fun r => { c with regs := r }
  | 7 => (idiv16 c.regs operand).map fun r => { c with regs := r }
  | _ => .ok c

/-- `execute(opcode)`: the flat dispatch `switch`.  A thrown JS error
(division overflow, missing ALU method) is an `Except.error`; the
`default` arm logs to the console and sets `halted = true`. -/
def execute (c : CPUState) (opcode : Nat) : Except String CPUState :=
  match opcode with
  | 0x90 => .ok c -- NOP
  | 0xF4 => .ok { c with halted := true } -- HLT
  -- MOV reg16, imm16
  | 0xB8 | 0xB9 | 0xBA | 0xBB | 0xBC | 0xBD | 0xBE | 0xBF =>
    let regIndex := opcode - 0xB8
    let (w, c) := fetchWord c
    .ok { c with regs := set16 c.regs (regNames.getD regIndex "") w }
  -- ADD AX, imm16
  | 0x05 =>
    let val1 := get16 c.regs "AX"
    let (val2, c) := fetchWord c
    let (r, res) := add16 c.regs val1 val2
    .ok { c with regs := set16 r "AX" res }
  -- SUB AX, imm16
  | 0x2D =>
    let val1 := get16 c.regs "AX"
    let (val2, c) := fetchWord c
    let (r, res) := sub16 c.regs val1 val2
    .ok { c with regs := set16 r "AX" res }
  -- CMP AX, imm16
  | 0x3D =>
    let (imm, c) := fetchWord c
    .ok { c with regs := cmp16 c.regs (get16 c.regs "AX") imm }
  -- AND AX, imm16
  | 0x25 =>
    let (imm, c) := fetchWord c
    let (r, res) := and16 c.regs (get16 c.regs "AX") imm
    .ok { c with regs := set16 r "AX" res }
  -- OR AX, imm16
  | 0x0D =>
    let (imm, c) := fetchWord c
    let (r, res) := or16 c.regs (get16 c.regs "AX") imm
    .ok { c with regs := set16 r "AX" res }
  -- XOR AX, imm16
  | 0x35 =>
    let (imm, c) := fetchWord c
    let (r, res) := xor16 c.regs (get16 c.regs "AX") imm
    .ok { c with regs := set16 r "AX" res }
  -- INC reg16
  | 0x40 | 0x41 | 0x42 | 0x43 | 0x44 | 0x45 | 0x46 | 0x47 =>
    let name := regNames.getD (opcode - 0x40) ""
    let (r, newVal) := inc16 c.regs (get16 c.regs name)
    .ok { c with regs := set16 r name newVal }
  -- DEC reg16
  | 0x48 | 0x49 | 0x4A | 0x4B | 0x4C | 0x4D | 0x4E | 0x4F =>
    let name := regNames.getD (opcode - 0x48) ""
    let (r, newVal) := dec16 c.regs (get16 c.regs name)
    .ok { c with regs := set16 r name newVal }
  -- Shift/Rotate group 2
  | 0xD0 | 0xD1 | 0xD2 | 0xD3 =>
    let (modRM, c) := fetchByte c
    let md := (modRM >>> 6) &&& 3
    let ext := (modRM >>> 3) &&& 7
    let rm := modRM &&& 7
    let count := if opcode = 0xD0 ∨ opcode = 0xD1 then 1 else get8 c.regs "CL"
    let is16bit := opcode = 0xD1 ∨ opcode = 0xD3
    if ¬is16bit then .ok c -- 8-bit forms: console.error, no halt
    else if md = 3 then
      let operand := get16 c.regs (regNames.getD rm "")
      shiftRotateOp c operand md rm 0 "DS" ext count
    else
      let ((offset, segment), c) := resolveEffectiveAddress c md rm
      let segVal := get16 c.regs segment
      let low := readByte c.mem segVal offset
      let high := readByte c.mem segVal (offset + 1)
      shiftRotateOp c ((high <<< 8) ||| low) md rm offset segment ext count
  -- Group 3 (TEST/NOT/NEG/MUL/IMUL/DIV/IDIV)
  | 0xF7 =>
    let (modRM, c) := fetchByte c
    let md := (modRM >>> 6) &&& 3
    let ext := (modRM >>> 3) &&& 7
    let rm := modRM &&& 7
    if md = 3 then
      let operand := get16 c.regs (regNames.getD rm "")
      group3Op c operand md rm 0 "DS" ext
    else
      let ((offset, segment), c) := resolveEffectiveAddress c md rm
      let segVal := get16 c.regs segment
      let low := readByte c.mem segVal offset
      let high := readByte c.mem segVal (offset + 1)
      group3Op c ((high <<< 8) ||| low) md rm offset segment ext
  -- JZ rel8
  | 0x74 =>
    let (offset, c) := fetchByte c
    if getFlag c.regs FLAGS.ZF = 1 then
      let currentIP := get16 c.regs "IP"
      .ok { c with regs := set16 c.regs "IP" ((currentIP : Int) + signExtend8 offset) }
    else .ok c
  -- JNZ rel8
  | 0x75 =>
    let (offset, c) := fetchByte c
    if getFlag c.regs FLAGS.ZF = 0 then
      let currentIP := get16 c.regs "IP"
      .ok { c with regs := set16 c.regs "IP" ((currentIP : Int) + signExtend8 offset) }
    else .ok c
  -- MOV reg16, mem16
  | 0x8B =>
    let (modRM, c) := fetchByte c
    let md := (modRM >>> 6) &&& 3
    let reg := (modRM >>> 3) &&& 7
    let rm := modRM &&& 7
    let destReg := regNames.getD reg ""
    if md = 3 then
      .ok { c with regs := set16 c.regs destReg (get16 c.regs (regNames.getD rm "")) }
    else
      let ((offset, segment), c) := resolveEffectiveAddress c md rm
      let segVal := get16 c.regs segment
      let value := (readByte c.mem segVal (offset + 1) <<< 8) ||| readByte c.mem segVal offset
      .ok { c with regs := set16 c.regs destReg value }
  -- PUSH reg16
  | 0x50 | 0x51 | 0x52 | 0x53 | 0x54 | 0x55 | 0x56 | 0x57 =>
    .ok (push16 c (get16 c.regs (regNames.getD (opcode - 0x50) "")))
  -- POP reg16
  | 0x58 | 0x59 | 0x5A | 0x5B | 0x5C | 0x5D | 0x5E | 0x5F =>
    let (v, c) := pop16 c
    .ok { c with regs := set16 c.regs (regNames.getD (opcode - 0x58) "") v }
  -- LEA reg16, mem16
  | 0x8D =>
    let (modRM, c) := fetchByte c
    let md := (modRM >>> 6) &&& 3
    let reg := (modRM >>> 3) &&& 7
    let rm := modRM &&& 7
    let destReg := regNames.getD reg ""
    if md ≠ 3 then
      let ((offset, _segment), c) := resolveEffectiveAddress c md rm
      .ok { c with regs := set16 c.regs destReg offset }
    else .ok c
  -- CALL rel16
  | 0xE8 =>
    let (offset, c) := fetchWord c
    let currentIP := get16 c.regs "IP"
    let c := push16 c currentIP
    let signedOffset := signExtend16 offset
    .ok { c with regs := set16 c.regs "IP" ((currentIP : Int) + signedOffset) }
  -- RET
  | 0xC3 =>
    let (returnAddress, c) := pop16 c
    .ok { c with regs := set16 c.regs "IP" returnAddress }
  -- JC rel8
  | 0x72 =>
    let (offset, c) := fetchByte c
    if getFlag c.regs FLAGS.CF = 1 then
      .ok { c with regs := set16 c.regs "IP" ((get16 c.regs "IP" : Int) + signExtend8 offset) }
    else .ok c
  -- JNC rel8
  | 0x73 =>
    let (offset, c) := fetchByte c
    if getFlag c.regs FLAGS.CF = 0 then
      .ok { c with regs := set16 c.regs "IP" ((get16 c.regs "IP" : Int) + signExtend8 offset) }
    else .ok c
  | 0xF8 => .ok { c with regs := setFlag c.regs FLAGS.CF false } -- CLC
  | 0xF9 => .ok { c with regs := setFlag c.regs FLAGS.CF true } -- STC
  | 0xF5 => -- CMC
    let currentCF := getFlag c.regs FLAGS.CF
    .ok { c with regs := setFlag c.regs FLAGS.CF (currentCF == 0) }
  -- Fast XCHG AX, reg16 (0x90 itself is NOP above)
  | 0x91 | 0x92 | 0x93 | 0x94 | 0x95 | 0x96 | 0x97 =>
    let regName := regNames.getD (opcode - 0x90) ""
    let valAX := get16 c.regs "AX"
    let valReg := get16 c.regs regName
    let regs := set16 c.regs "AX" valReg
    .ok { c with regs := set16 regs regName valAX }
  -- General XCHG reg16, mem/reg16
  | 0x87 =>
    let (modRM, c) := fetchByte c
    let md := (modRM >>> 6) &&& 3
    let reg := (modRM >>> 3) &&& 7
    let rm := modRM &&& 7
    let valReg := get16 c.regs (regNames.getD reg "")
    if md = 3 then
      let valRM := get16 c.regs (regNames.getD rm "")
      let regs := set16 c.regs (regNames.getD reg "") valRM
      .ok { c with regs := set16 regs (regNames.getD rm "") valReg }
    else
      let ((offset, segment), c) := resolveEffectiveAddress c md rm
      let ss := get16 c.regs segment
      let low := readByte c.mem ss offset
      let high := readByte c.mem ss (offset + 1)
      let valMem := (high <<< 8) ||| low
      let mem := writeByte c.mem ss offset (valReg % 256)
      let mem := writeByte mem ss (offset + 1) ((valReg >>> 8) % 256)
      .ok { c with mem := mem, regs := set16 c.regs (regNames.getD reg "") valMem }
  -- default: unknown opcode — console.error and halt, no throw
  | _ => .ok { c with halted := true }

/-- `step()`: no-op when halted, otherwise fetch one opcode byte and
execute it. -/
def step (c : CPUState) : Except String CPUState :=
  if c.halted then .ok c
  else
    let (opcode, c) := fetchByte c
    execute c opcode

/-- The driver loop `while (!halted) step()`, with explicit fuel. -/
def run (fuel : Nat) (c : CPUState) : Except String CPUState :=
  match fuel with
  | 0 => .ok c
  | n + 1 => if c.halted then .ok c else (step c).bind (run n)

/-- Load a program byte list at physical address 0
(`cpu.memory.data[i] = program[i]`, the demo driver's loader). -/
def loadProgram (prog : List Nat) : CPUState :=
  { cpuInit with mem := fun a => prog.getD a 0 }

/-!
## Assembler — `src/assembler/*.js`

Lines and tokens are processed as character lists; names that become map
keys (labels, mnemonics, operands) are packed back into `String`.
-/

/-- `String.prototype.split(sep)` for a single-character separator. -/
def splitOnChar (sep : Char) (l : List Char) : List (List Char) :=
  match l with
  | [] => [[]]
  | ch :: rest =>
    let parts := splitOnChar sep rest
    if ch = sep then [] :: parts
    else
      match parts with
      | [] => [[ch]]
      | p :: ps => (ch :: p) :: ps

/-- `String.prototype.trim()`: strip leading and trailing whitespace. -/
def jsTrim (l : List Char) : List Char :=
  ((l.dropWhile Char.isWhitespace).reverse.dropWhile Char.isWhitespace).reverse

/-- `lexer(code)` — `src/assembler/lexer.js`: split into lines, strip
comments from the first `;`, trim, drop blanks, upper-case. -/
def lexer (code : String) : List (List Char) :=
  (splitOnChar '\n' code.data).foldr
    (fun line tokens =>
      let line := line.takeWhile (· ≠ ';')
      let line := jsTrim line
      if line.length = 0 then tokens
      else (line.map Char.toUpper) :: tokens)
    []

/-- A parsed line — `{ label, mnemonic, operands }`.  `label` is `none`
for a line with no colon; the label text itself may be empty (JS keeps
the empty string, which later truthiness checks skip). -/
structure ParsedLine where
  label : Option String
  mnemonic : Option String
  operands : List String
deriving DecidableEq

/-- The `\w` character class of the mnemonic regex
`/^(\w+)\s*(.*)$/`: ASCII letters, digits and underscore. -/
def isWordChar (ch : Char) : Bool :=
  ch.isAlphanum || ch = '_'

/-- The mnemonic/operand step of `parser`: match `/^(\w+)\s*(.*)$/`,
upper-case the mnemonic, and split the operand part on commas, trimming
and dropping empty pieces. -/
def parseBody (label : Option String) (line : List Char) : ParsedLine :=
  let word := line.takeWhile isWordChar
  if word.isEmpty then
    -- the regex fails to match: mnemonic stays null, operands stay []
    { label := label, mnemonic := none, operands := [] }
  else
    let mnemonic := String.mk (word.map Char.toUpper)
    let operandPart := (line.drop word.length).dropWhile Char.isWhitespace
    let operands :=
      if operandPart.isEmpty then []
      else
        ((splitOnChar ',' operandPart).map jsTrim).filter (fun op => op.length > 0)
          |>.map String.mk
    { label := label, mnemonic := some mnemonic, operands := operands }

/-- `parser(lines)` — `src/assembler/parser.js`: split a leading label
off at the first colon (only `parts[1]` is kept, as in the source), then
parse the instruction body. -/
def parser (lines : List (List Char)) : List ParsedLine :=
  lines.map fun line =>
    if line.contains ':' then
      let parts := splitOnChar ':' line
      let label := String.mk (jsTrim (parts.headD []))
      let rest :=
        match parts.get? 1 with
        | some p => if p.isEmpty then [] else jsTrim p -- `parts[1] ? parts[1].trim() : ""`
        | none => []
      if rest.isEmpty then { label := some label, mnemonic := none, operands := [] }
      else parseBody (some label) rest
    else parseBody none line

/-- The assembler's register-index table —
`src/assembler/registers.js`. -/
def asmRegisters (op : String) : Option Nat :=
  match op with
  | "AX" => some 0 | "CX" => some 1 | "DX" => some 2 | "BX" => some 3
  | "SP" => some 4 | "BP" => some 5 | "SI" => some 6 | "DI" => some 7
  | _ => none

/-- `isRegister(op)` — `src/assembler/utils.js` (operands are already
upper-case when this is called). -/
def isRegister (op : String) : Bool :=
  (asmRegisters op).isSome

/-- `isImmediate(op)`: `/^-?\d+$/` or `/^0X[0-9A-F]+$/i`. -/
def isImmediate (op : String) : Bool :=
  (match op.data with
   | '-' :: rest => ¬rest.isEmpty && rest.all Char.isDigit
   | l => ¬l.isEmpty && l.all Char.isDigit) ||
  (match op.data with
   | '0' :: x :: rest =>
     (x = 'X' || x = 'x') && ¬rest.isEmpty &&
       rest.all (fun ch => ch.isDigit || ('A' ≤ ch && ch ≤ 'F') || ('a' ≤ ch && ch ≤ 'f'))
   | _ => false)

/-- Value of a digit sequence (decimal). -/
def decValue (l : List Char) : Nat :=
  l.foldl (fun acc ch => acc * 10 + (ch.toNat - '0'.toNat)) 0

/-- Value of a hex-digit sequence. -/
def hexDigitVal (ch : Char) : Nat :=
  if ch.isDigit then ch.toNat - '0'.toNat
  else if 'A' ≤ ch ∧ ch ≤ 'F' then ch.toNat - 'A'.toNat + 10
  else if 'a' ≤ ch ∧ ch ≤ 'f' then ch.toNat - 'a'.toNat + 10
  else 0

/-- `parseInt(op)` as used by pass 2 on operands that already passed
`isImmediate`: an optional sign followed by decimal digits, or `0x`/`0X`
followed by hex digits (JS `parseInt` auto-detects the `0x` prefix). -/
def parseIntJS (s : String) : Int :=
  match s.data with
  | '-' :: rest => -(decValue rest : Int)
  | '0' :: 'X' :: rest => (rest.foldl (fun acc ch => acc * 16 + hexDigitVal ch) 0 : Nat)
  | '0' :: 'x' :: rest => (rest.foldl (fun acc ch => acc * 16 + hexDigitVal ch) 0 : Nat)
  | l => (decValue l : Nat)

/-- `toLittleEndian16(value)` — `[value & 0xFF, (value >> 8) & 0xFF]`
with JS 32-bit bitwise semantics (the argument may be negative). -/
def toLittleEndian16 (value : Int) : List Nat :=
  [jsToUint8 value, jsToUint8 (Int.fdiv value 256)]

/-- An instruction-table entry — `src/assembler/instructionMap.js`.
`group` is `none` where the JS object has no `group` property. -/
structure Entry where
  opcode : Nat
  size : Nat
  modrm : Bool := false
  regOpcode : Bool := false
  group : Option Nat := none
  relative : Bool := false

/-- `instructionMap` — `src/assembler/instructionMap.js`. -/
def instructionMap (key : String) : Option Entry :=
  match key with
  | "MOV_REG_REG" => some { opcode := 0x89, size := 2, modrm := true }
  | "MOV_REG_IMM" => some { opcode := 0xB8, size := 3, regOpcode := true }
  | "PUSH_REG" => some { opcode := 0x50, size := 1, regOpcode := true }
  | "POP_REG" => some { opcode := 0x58, size := 1, regOpcode := true }
  | "XCHG_REG_REG" => some { opcode := 0x87, size := 2, modrm := true }
  | "LEA_REG_MEM" => some { opcode := 0x8D, size := 2, modrm := true }
  | "ADD_REG_REG" => some { opcode := 0x01, size := 2, modrm := true }
  | "ADD_REG_IMM" => some { opcode := 0x81, size := 4, group := some 0 }
  | "SUB_REG_REG" => some { opcode := 0x29, size := 2, modrm := true }
  | "SUB_REG_IMM" => some { opcode := 0x81, size := 4, group := some 5 }
  | "CMP_REG_REG" => some { opcode := 0x39, size := 2, modrm := true }
  | "CMP_REG_IMM" => some { opcode := 0x81, size := 4, group := some 7 }
  | "INC_REG" => some { opcode := 0x40, size := 1, regOpcode := true }
  | "DEC_REG" => some { opcode := 0x48, size := 1, regOpcode := true }
  | "MUL_REG" => some { opcode := 0xF7, size := 2, group := some 4 }
  | "DIV_REG" => some { opcode := 0xF7, size := 2, group := some 6 }
  | "AND_REG_REG" => some { opcode := 0x21, size := 2, modrm := true }
  | "OR_REG_REG" => some { opcode := 0x09, size := 2, modrm := true }
  | "XOR_REG_REG" => some { opcode := 0x31, size := 2, modrm := true }
  | "TEST_REG_REG" => some { opcode := 0x85, size := 2, modrm := true }
  | "NOT_REG" => some { opcode := 0xF7, size := 2, group := some 2 }
  | "MOVSB" => some { opcode := 0xA4, size := 1 }
  | "LODSB" => some { opcode := 0xAC, size := 1 }
  | "STOSB" => some { opcode := 0xAA, size := 1 }
  | "CMPSB" => some { opcode := 0xA6, size := 1 }
  | "JMP" => some { opcode := 0xE9, size := 3, relative := true }
  | "CALL" => some { opcode := 0xE8, size := 3, relative := true }
  | "RET" => some { opcode := 0xC3, size := 1 }
  | "JE" => some { opcode := 0x74, size := 2, relative := true }
  | "JZ" => some { opcode := 0x74, size := 2, relative := true }
  | "JNE" => some { opcode := 0x75, size := 2, relative := true }
  | "JNZ" => some { opcode := 0x75, size := 2, relative := true }
  | "JC" => some { opcode := 0x72, size := 2, relative := true }
  | "JNC" => some { opcode := 0x73, size := 2, relative := true }
  | "ROL" => some { opcode := 0xD1, size := 2, group := some 0 }
  | "ROR" => some { opcode := 0xD1, size := 2, group := some 1 }
  | "SHL" => some { opcode := 0xD1, size := 2, group := some 4 }
  | "SHR" => some { opcode := 0xD1, size := 2, group := some 5 }
  | "NOP" => some { opcode := 0x90, size := 1 }
  | "HLT" => some { opcode := 0xF4, size := 1 }
  | "CLC" => some { opcode := 0xF8, size := 1 }
  | "STC" => some { opcode := 0xF9, size := 1 }
  | _ => none

/-- `detectInstructionKey(mnemonic, operands)` (identical in
symbolTable.js and pass2.js). -/
def detectInstructionKey (mnemonic : String) (operands : List String) : String :=
  if operands.length = 2 then
    let dest := operands.getD 0 ""
    let src := operands.getD 1 ""
    if isRegister dest && isRegister src then mnemonic ++ "_REG_REG"
    else if isRegister dest && isImmediate src then mnemonic ++ "_REG_IMM"
    else mnemonic
  else if operands.length = 1 && isRegister (operands.getD 0 "") then
    mnemonic ++ "_REG"
  else mnemonic

/-- The symbol table: a JS object keyed by label.  Modelled as an
association list where the most recent assignment shadows earlier ones
(`symbolTable[label] = offset` overwrites). -/
def SymTable := List (String × Nat)

/-- `symbolTable[label]` lookup: `none` plays the role of `undefined`. -/
def symLookup (t : SymTable) (label : String) : Option Nat :=
  (t.find? (fun p => p.1 = label)).map Prod.snd

/-- The loop of `buildSymbolTable(parsedLines)` — symbolTable.js.
A truthy (non-empty) label is recorded at the current offset with no
duplicate check; an unknown instruction form throws. -/
def buildSymbolTableAux (lines : List ParsedLine) (table : SymTable)
    (offset : Nat) : Except String SymTable :=
  match lines with
  | [] => .ok table
  | line :: rest =>
    let table :=
      match line.label with
      | some l => if l ≠ "" then (l, offset) :: table else table
      | none => table
    match line.mnemonic with
    | none => buildSymbolTableAux rest table offset
    | some mn =>
      let key := detectInstructionKey mn line.operands
      match instructionMap key with
      | none => .error ("Unknown instruction form: " ++ key)
      | some entry => buildSymbolTableAux rest table (offset + entry.size)

/-- `buildSymbolTable(parsedLines)`. -/
def buildSymbolTable (lines : List ParsedLine) : Except String SymTable :=
  buildSymbolTableAux lines [] 0

/-- `buildModRM(reg, rm)` — `(0b11 << 6) | (reg << 3) | rm`; both
fields are register indices below 8, so the OR is plain addition. -/
def buildModRM (reg rm : Nat) : Nat :=
  0b11 * 64 + reg * 8 + rm

/-- Suffix test used by pass 2 (`key.endsWith(...)`). -/
def strEndsWith (s suffixStr : String) : Bool :=
  suffixStr.data.isSuffixOf s.data

/-- The loop of `pass2(parsedLines, symbolTable)` — pass2.js: emit bytes
per line.  REG_REG emits opcode + ModR/M; REG_IMM emits either
`opcode + regIndex` (MOV) or opcode + group ModR/M, then the 16-bit
immediate; relative jumps emit the opcode and a checked displacement;
everything else emits the bare opcode. -/
def pass2Aux (lines : List ParsedLine) (symbolTable : SymTable)
    (currentOffset : Nat) : Except String (List Nat) :=
  match lines with
  | [] => .ok []
  | line :: rest =>
    match line.mnemonic with
    | none => pass2Aux rest symbolTable currentOffset
    | some mnemonic =>
      let operands := line.operands
      let key := detectInstructionKey mnemonic operands
      match instructionMap key with
      | none => .error ("Line " ++ toString currentOffset ++ ": Unsupported instruction " ++ key)
      | some entry =>
        let opcode := entry.opcode
        let bytes : Except String (List Nat) :=
          if strEndsWith key "_REG_REG" then
            let modrm := buildModRM ((asmRegisters (operands.getD 1 "")).getD 0)
                                    ((asmRegisters (operands.getD 0 "")).getD 0)
            .ok [opcode, modrm]
          else if strEndsWith key "_REG_IMM" then
            let val := parseIntJS (operands.getD 1 "")
            let head :=
              if mnemonic = "MOV" then [opcode + (asmRegisters (operands.getD 0 "")).getD 0]
              else [opcode, buildModRM (entry.group.getD 0) ((asmRegisters (operands.getD 0 "")).getD 0)]
            .ok (head ++ toLittleEndian16 val)
          else if entry.relative then
            match symLookup symbolTable (operands.getD 0 "") with
            | none => .error ("Undefined label: " ++ operands.getD 0 "")
            | some target =>
              let nextIP := currentOffset + entry.size
              let relOffset : Int := (target : Int) - (nextIP : Int)
              if entry.size = 2 then
                if relOffset < -128 ∨ relOffset > 127 then
                  .error ("Jump to " ++ operands.getD 0 "" ++ " is too far")
                else .ok [opcode, jsToUint8 relOffset]
              else .ok (opcode :: toLittleEndian16 relOffset)
          else .ok [opcode]
        match bytes with
        | .error e => .error e
        | .ok bs =>
          match pass2Aux rest symbolTable (currentOffset + entry.size) with
          | .error e => .error e
          | .ok restBytes => .ok (bs ++ restBytes)

/-- `pass2(parsedLines, symbolTable)`. -/
def pass2 (lines : List ParsedLine) (symbolTable : SymTable) :
    Except String (List Nat) :=
  pass2Aux lines symbolTable 0

/-- `assemble(code)` — `src/assembler/assembler.js`: lexer, parser,
symbol-table pass, encoder.  Returns the symbol table and the machine
code. -/
def assemble (code : String) : Except String (SymTable × List Nat) :=
  let tokens := lexer code
  let parsed := parser tokens
  match buildSymbolTable parsed with
  | .error e => .error e
  | .ok symbolTable =>
    match pass2 parsed symbolTable with
    | .error e => .error e
    | .ok machineCode => .ok (symbolTable, machineCode)

/-!
## Derived reference definitions used by the theorems
-/

/-- The quotient computed inside `div16` for a nonzero divisor
(read off the same source lines as `div16` itself). -/
def div16Quotient (r : RegState) (divisor : Nat) : Int :=
  Int.fdiv (jsToInt32 (((get16 r "DX" <<< 16) ||| get16 r "AX" : Nat) : Int)) (divisor : Int)

/-- The byte size pass 1 charges a parsed line (0 when the line has no
mnemonic or an unknown key; the latter never happens on lines that pass
`buildSymbolTable`). -/
def lineSize (l : ParsedLine) : Nat :=
  match l.mnemonic with
  | none => 0
  | some mn =>
    match instructionMap (detectInstructionKey mn l.operands) with
    | some e => e.size
    | none => 0

/-- Reference recursion for the symbol table: the offset recorded for
label `L` after walking `lines` starting at `off`, with a later
occurrence shadowing an earlier one (and the empty label skipped, as JS
truthiness does). -/
def lastLabelOffset (L : String) (lines : List ParsedLine) (off : Nat) : Option Nat :=
  match lines with
  | [] => none
  | l :: rest =>
    (lastLabelOffset L rest (off + lineSize l)).orElse
      (fun _ => if l.label = some L ∧ L ≠ "" then some off else none)

/-- The opcodes carrying a dedicated arm in `execute`'s dispatch
`switch` (read off the same case labels); every other opcode byte falls
through to the `default` arm. -/
def handledOpcode (opcode : Nat) : Bool :=
  match opcode with
  | 0x90 | 0xF4
  | 0xB8 | 0xB9 | 0xBA | 0xBB | 0xBC | 0xBD | 0xBE | 0xBF
  | 0x05 | 0x2D | 0x3D | 0x25 | 0x0D | 0x35
  | 0x40 | 0x41 | 0x42 | 0x43 | 0x44 | 0x45 | 0x46 | 0x47
  | 0x48 | 0x49 | 0x4A | 0x4B | 0x4C | 0x4D | 0x4E | 0x4F
  | 0xD0 | 0xD1 | 0xD2 | 0xD3
  | 0xF7 | 0x74 | 0x75 | 0x8B
  | 0x50 | 0x51 | 0x52 | 0x53 | 0x54 | 0x55 | 0x56 | 0x57
  | 0x58 | 0x59 | 0x5A | 0x5B | 0x5C | 0x5D | 0x5E | 0x5F
  | 0x8D | 0xE8 | 0xC3 | 0x72 | 0x73 | 0xF8 | 0xF9 | 0xF5
  | 0x91 | 0x92 | 0x93 | 0x94 | 0x95 | 0x96 | 0x97 | 0x87 => true
  | _ => false

/-!
## Helper lemmas
-/

theorem jsToUint16_lt (v : Int) : jsToUint16 v < 65536 := by
  unfold jsToUint16
  omega

theorem jsToUint16_ofNat (n : Nat) : jsToUint16 (n : Int) = n % 65536 := by
  unfold jsToUint16
  omega

theorem lor_shift8 (hi lo : Nat) (h : lo < 256) :
    (hi <<< 8) ||| lo = 256 * hi + lo := by
  have e : (256 : Nat) * hi + lo = 2 ^ 8 * hi + lo := by ring
  rw [e]
  apply Nat.eq_of_testBit_eq
  intro i
  rw [Nat.testBit_lor, Nat.testBit_shiftLeft,
    Nat.testBit_mul_pow_two_add hi (show lo < 2 ^ 8 by omega) i]
  rcases Nat.lt_or_ge i 8 with hl | hl
  · simp [hl, Nat.not_le.mpr hl]
  · have hpow : (256 : Nat) ≤ 2 ^ i := by
      calc (256 : Nat) = 2 ^ 8 := by norm_num
      _ ≤ 2 ^ i := Nat.pow_le_pow_right (by norm_num) hl
    have hz : lo.testBit i = false := Nat.testBit_lt_two_pow (lt_of_lt_of_le h hpow)
    simp [hl, Nat.not_lt.mpr hl, hz]

theorem get16_set16_self (r : RegState) (n : String) (v : Int) :
    get16 (set16 r n v) n = jsToUint16 v := by
  simp only [get16, set16]
  have h1 : ¬(regMap n + 1 = regMap n) := by omega
  simp [h1]
  omega

theorem get16_set16_ne (r : RegState) (n n' : String) (v : Int)
    (h : regMap n + 1 < regMap n' ∨ regMap n' + 1 < regMap n) :
    get16 (set16 r n' v) n = get16 r n := by
  simp only [get16, set16]
  have h1 : ¬(regMap n = regMap n') := by omega
  have h2 : ¬(regMap n = regMap n' + 1) := by omega
  have h3 : ¬(regMap n + 1 = regMap n') := by omega
  have h4 : ¬(regMap n + 1 = regMap n' + 1) := by omega
  simp [h1, h2, h3, h4]

theorem getFlag_eq_testBit (r : RegState) (b : Nat) :
    getFlag r b = (Nat.testBit (get16 r "FLAGS") b).toNat := by
  unfold getFlag
  rw [Nat.and_one_is_mod, Nat.shiftRight_eq_div_pow, Nat.testBit_to_div_mod]
  rcases Nat.mod_two_eq_zero_or_one (get16 r "FLAGS" / 2 ^ b) with h | h <;> simp [h]

theorem get16_setFlag_flags (r : RegState) (b : Nat) (v : Bool) :
    get16 (setFlag r b v) "FLAGS" =
      (if v then get16 r "FLAGS" ||| 2 ^ b
       else get16 r "FLAGS" &&& (4294967295 ^^^ 2 ^ b)) % 65536 := by
  unfold setFlag
  rw [get16_set16_self]
  rcases v with _ | _ <;>
    simp [jsToUint16_ofNat, Nat.shiftLeft_eq]

theorem getFlag_setFlag_self (r : RegState) (b : Nat) (v : Bool) (hb : b < 16) :
    getFlag (setFlag r b v) b = if v then 1 else 0 := by
  rw [getFlag_eq_testBit, get16_setFlag_flags]
  have hb32 : b < 32 := by omega
  have hmaskbit : Nat.testBit (4294967295 ^^^ 2 ^ b) b = false := by
    have hff : (4294967295 : Nat) = 2 ^ 32 - 1 := by norm_num
    rw [Nat.testBit_xor, hff, Nat.testBit_two_pow_sub_one]
    simp [Nat.testBit_two_pow, hb32]
  have h65536 : (65536 : Nat) = 2 ^ 16 := by norm_num
  rcases v with _ | _
  · simp only [Bool.false_eq_true, if_false, h65536, Nat.testBit_mod_two_pow,
      Nat.testBit_land, hmaskbit]
    simp [hb]
  · simp only [if_true, h65536, Nat.testBit_mod_two_pow, Nat.testBit_lor,
      Nat.testBit_two_pow]
    simp [hb]

theorem getFlag_setFlag_ne (r : RegState) (b b' : Nat) (v : Bool)
    (hb : b < 16) (hne : b ≠ b') :
    getFlag (setFlag r b' v) b = getFlag r b := by
  rw [getFlag_eq_testBit, getFlag_eq_testBit, get16_setFlag_flags]
  have hbp : Nat.testBit (2 ^ b') b = false := Nat.testBit_two_pow_of_ne (Ne.symm hne)
  have hmaskbit : Nat.testBit (4294967295 ^^^ 2 ^ b') b = true := by
    have hff : (4294967295 : Nat) = 2 ^ 32 - 1 := by norm_num
    rw [Nat.testBit_xor, hff, Nat.testBit_two_pow_sub_one, hbp]
    simp [show b < 32 by omega]
  have h65536 : (65536 : Nat) = 2 ^ 16 := by norm_num
  rcases v with _ | _
  · simp only [Bool.false_eq_true, if_false, h65536, Nat.testBit_mod_two_pow,
      Nat.testBit_land, hmaskbit]
    simp [hb]
  · simp only [if_true, h65536, Nat.testBit_mod_two_pow, Nat.testBit_lor, hbp]
    simp [hb]

theorem get8_set16_lo (r : RegState) (n16 n8 : String) (v : Int)
    (hlo : reg8Offset n8 = regMap n16) :
    get8 (set16 r n16 v) n8 = jsToUint16 v % 256 := by
  simp [get8, set16, hlo]

theorem get8_set16_hi (r : RegState) (n16 n8 : String) (v : Int)
    (hhi : reg8Offset n8 = regMap n16 + 1) :
    get8 (set16 r n16 v) n8 = jsToUint16 v / 256 := by
  have h1 : ¬(regMap n16 + 1 = regMap n16) := by omega
  simp [get8, set16, hhi, h1]

theorem get8_set8_self (r : RegState) (n8 : String) (b : Int) :
    get8 (set8 r n8 b) n8 = jsToUint8 b := by
  simp [get8, set8]

theorem get8_set8_ne (r : RegState) (n8 m8 : String) (b : Int)
    (h : reg8Offset n8 ≠ reg8Offset m8) :
    get8 (set8 r m8 b) n8 = get8 r n8 := by
  simp [get8, set8, h]

theorem get16_set8_ne (r : RegState) (n16 n8 : String) (b : Int)
    (h1 : regMap n16 ≠ reg8Offset n8) (h2 : regMap n16 + 1 ≠ reg8Offset n8) :
    get16 (set8 r n8 b) n16 = get16 r n16 := by
  simp [get16, set8, h1, h2]

theorem get16_set8_lo (r : RegState) (n16 n8 : String) (b : Int)
    (hlo : reg8Offset n8 = regMap n16) :
    get16 (set8 r n8 b) n16 = jsToUint8 b + 256 * r (regMap n16 + 1) := by
  have h2 : ¬(regMap n16 + 1 = reg8Offset n8) := by omega
  simp [get16, set8, hlo, h2]

theorem get16_set8_hi (r : RegState) (n16 n8 : String) (b : Int)
    (hhi : reg8Offset n8 = regMap n16 + 1) :
    get16 (set8 r n8 b) n16 = r (regMap n16) + 256 * jsToUint8 b := by
  have h1 : ¬(regMap n16 = reg8Offset n8) := by omega
  simp [get16, set8, hhi, h1]

theorem and_32768_ne_iff (x : Nat) : x &&& 32768 ≠ 0 ↔ x.testBit 15 = true := by
  rw [show (32768 : Nat) = 2 ^ 15 by norm_num, Nat.and_two_pow]
  rcases h : x.testBit 15 <;> simp [h]

/-!
## Claims
-/

/-- C4 (counterexample): the claimed `seg ⇔ seg+1, off ⇔ off−16`
invariance of `getPhysicalAddress` fails at seg = 0, off = 0, where
`(off − 16) & 0xFFFF` wraps to 0xFFF0: the two addresses are 0 and
0x10010. -/
theorem C4_claim_counterexample :
    getPhysicalAddress ((0 + 1) % 65536) (jsToUint16 ((0 : Int) - 16)) ≠
      getPhysicalAddress 0 0 := by
  decide

/-- C4 (amended): `readByte` after `writeByte` at the same seg:off
returns `v % 256` (that is, `v & 0xFF`); the `seg ⇔ seg+1, off ⇔ off−16`
invariance of `getPhysicalAddress` holds whenever `16 ≤ off ≤ 0xFFFF`
(so that `(off − 16) & 0xFFFF` does not wrap); and every physical
address is at most 0xFFFFF. -/
theorem C4_memory_properties :
    (∀ (m : Mem) (seg off v : Nat),
        readByte (writeByte m seg off v) seg off = v % 256) ∧
    (∀ seg off : Nat, 16 ≤ off → off ≤ 0xFFFF →
        getPhysicalAddress ((seg + 1) % 65536) (off - 16) =
          getPhysicalAddress seg off) ∧
    (∀ seg off : Nat, getPhysicalAddress seg off ≤ 0xFFFFF) := by
  refine ⟨fun m seg off v => ?_, fun seg off h16 hoff => ?_, fun seg off => ?_⟩
  · simp [readByte, writeByte]
  · unfold getPhysicalAddress
    omega
  · unfold getPhysicalAddress
    omega

/-- C4 (witness): the amended properties instantiated at concrete
inputs. -/
theorem C4_memory_properties_witness :
    readByte (writeByte memInit 0x1234 0x0042 0x1AB) 0x1234 0x0042 = 0x1AB % 256 ∧
    getPhysicalAddress ((3 + 1) % 65536) (20 - 16) = getPhysicalAddress 3 20 ∧
    getPhysicalAddress 0xFFFF 0xFFFF ≤ 0xFFFFF :=
  ⟨C4_memory_properties.1 memInit 0x1234 0x0042 0x1AB,
   C4_memory_properties.2.1 3 20 (by decide) (by decide),
   C4_memory_properties.2.2 0xFFFF 0xFFFF⟩

/-- C9: for 16-bit `a` and `b`, `sub16(add16(a, b), b)` returns `a`
(the flag side effects of the two operations are irrelevant to the
returned value). -/
theorem C9_add_sub_round_trip (r : RegState) (a b : Nat)
    (ha : a ≤ 0xFFFF) (hb : b ≤ 0xFFFF) :
    (sub16 (add16 r a b).1 (add16 r a b).2 b).2 = a := by
  simp only [add16, sub16]
  unfold jsToUint16 jsToInt32
  omega

/-- C9 (witness): the round trip at a = 0xFFF0, b = 0x20 (the addition
wraps). -/
theorem C9_add_sub_round_trip_witness :
    (sub16 (add16 regsInit 0xFFF0 0x20).1 (add16 regsInit 0xFFF0 0x20).2 0x20).2 =
      0xFFF0 :=
  C9_add_sub_round_trip regsInit 0xFFF0 0x20 (by decide) (by decide)

/-- C5: for 16-bit `a`, `b`, the full-revision `add16` returns
`(a + b) mod 2^16` and sets ZF and SF from the result, CF iff the sum
exceeds 0xFFFF, AF iff the low nibbles carry, OF per the
`(a ^ result) & (b ^ result) & 0x8000` formula, and PF iff the low byte
of the result has an even number of set bits. -/
theorem C5_add16_flags (r : RegState) (a b : Nat)
    (ha : a ≤ 0xFFFF) (hb : b ≤ 0xFFFF) :
    (add16 r a b).2 = (a + b) % 65536 ∧
    getFlag (add16 r a b).1 FLAGS.ZF = (if (a + b) % 65536 = 0 then 1 else 0) ∧
    getFlag (add16 r a b).1 FLAGS.SF =
      (if Nat.testBit ((a + b) % 65536) 15 then 1 else 0) ∧
    getFlag (add16 r a b).1 FLAGS.CF = (if a + b > 0xFFFF then 1 else 0) ∧
    getFlag (add16 r a b).1 FLAGS.AF = (if a % 16 + b % 16 > 0xF then 1 else 0) ∧
    getFlag (add16 r a b).1 FLAGS.OF =
      (if ((a ^^^ (a + b) % 65536) &&& (b ^^^ (a + b) % 65536)) &&& 0x8000 ≠ 0
       then 1 else 0) ∧
    getFlag (add16 r a b).1 FLAGS.PF =
      (if parityCount ((a + b) % 65536 % 256) % 2 = 0 then 1 else 0) := by
  have hfull : (a + b) % 4294967296 = a + b := Nat.mod_eq_of_lt (by omega)
  simp only [add16, hfull, FLAGS.ZF, FLAGS.SF, FLAGS.CF, FLAGS.AF, FLAGS.OF, FLAGS.PF]
  refine ⟨trivial, ?_, ?_, ?_, ?_, ?_, ?_⟩ <;>
    simp [getFlag_setFlag_self, getFlag_setFlag_ne, and_32768_ne_iff]

/-- C5 (witness): `add16` at a = 0x7FFF, b = 1 (signed overflow,
nibble carry, even parity of 0x00). -/
theorem C5_add16_flags_witness :
    (0x7FFF : Nat) ≤ 0xFFFF ∧
    ((add16 regsInit 0x7FFF 1).2 = (0x7FFF + 1) % 65536 ∧
     getFlag (add16 regsInit 0x7FFF 1).1 FLAGS.ZF =
       (if (0x7FFF + 1) % 65536 = 0 then 1 else 0) ∧
     getFlag (add16 regsInit 0x7FFF 1).1 FLAGS.SF =
       (if Nat.testBit ((0x7FFF + 1) % 65536) 15 then 1 else 0) ∧
     getFlag (add16 regsInit 0x7FFF 1).1 FLAGS.CF =
       (if 0x7FFF + 1 > 0xFFFF then 1 else 0) ∧
     getFlag (add16 regsInit 0x7FFF 1).1 FLAGS.AF =
       (if 0x7FFF % 16 + 1 % 16 > 0xF then 1 else 0) ∧
     getFlag (add16 regsInit 0x7FFF 1).1 FLAGS.OF =
       (if ((0x7FFF ^^^ (0x7FFF + 1) % 65536) &&& (1 ^^^ (0x7FFF + 1) % 65536)) &&& 0x8000 ≠ 0
        then 1 else 0) ∧
     getFlag (add16 regsInit 0x7FFF 1).1 FLAGS.PF =
       (if parityCount ((0x7FFF + 1) % 65536 % 256) % 2 = 0 then 1 else 0)) :=
  ⟨by decide, C5_add16_flags regsInit 0x7FFF 1 (by decide) (by decide)⟩

/-- C8: for each general-purpose pair (AX/AL/AH, CX/CL/CH, DX/DL/DH,
BX/BL/BH): after `set16(reg, v)` the 8-bit views read `v % 256`
(low half, `v & 0xFF`) and `v / 256` (high half, `(v >> 8) & 0xFF`);
and an 8-bit write through `set8` changes exactly its own byte, leaving
the other half and every other 16-bit register slot unchanged. -/
theorem C8_reg_aliasing (r : RegState) (v b : Nat) (hv : v ≤ 0xFFFF) :
    ∀ p ∈ [("AX", "AL", "AH"), ("CX", "CL", "CH"),
           ("DX", "DL", "DH"), ("BX", "BL", "BH")],
      (get8 (set16 r p.1 (v : Int)) p.2.1 = v % 256 ∧
       get8 (set16 r p.1 (v : Int)) p.2.2 = v / 256) ∧
      (get16 (set8 r p.2.1 (b : Int)) p.1 = b % 256 + 256 * get8 r p.2.2 ∧
       get8 (set8 r p.2.1 (b : Int)) p.2.2 = get8 r p.2.2 ∧
       (∀ n ∈ ["AX", "CX", "DX", "BX", "SP", "BP", "SI", "DI",
               "ES", "CS", "SS", "DS", "IP", "FLAGS"],
          n ≠ p.1 → get16 (set8 r p.2.1 (b : Int)) n = get16 r n)) ∧
      (get16 (set8 r p.2.2 (b : Int)) p.1 = get8 r p.2.1 + 256 * (b % 256) ∧
       get8 (set8 r p.2.2 (b : Int)) p.2.1 = get8 r p.2.1 ∧
       (∀ n ∈ ["AX", "CX", "DX", "BX", "SP", "BP", "SI", "DI",
               "ES", "CS", "SS", "DS", "IP", "FLAGS"],
          n ≠ p.1 → get16 (set8 r p.2.2 (b : Int)) n = get16 r n)) := by
  intro p hp
  fin_cases hp <;>
    refine ⟨⟨?_, ?_⟩, ⟨?_, ?_, fun n hn hne => ?_⟩, ⟨?_, ?_, fun n hn hne => ?_⟩⟩ <;>
    try fin_cases hn
  all_goals first
    | exact absurd rfl hne
    | (simp [get8, set8, get16, set16, reg8Offset, regMap, jsToUint16, jsToUint8] <;> omega)

/-- C8 (witness): the AX pair at v = 0x1234, b = 0xAB, including one
frame fact (CX untouched by a write to AL). -/
theorem C8_reg_aliasing_witness :
    (get8 (set16 regsInit "AX" ((0x1234 : Nat) : Int)) "AL" = 0x1234 % 256 ∧
     get8 (set16 regsInit "AX" ((0x1234 : Nat) : Int)) "AH" = 0x1234 / 256) ∧
    get16 (set8 regsInit "AL" ((0xAB : Nat) : Int)) "CX" = get16 regsInit "CX" :=
  ⟨(C8_reg_aliasing regsInit 0x1234 0xAB (by decide) ("AX", "AL", "AH") (by decide)).1,
   (C8_reg_aliasing regsInit 0x1234 0xAB (by decide) ("AX", "AL", "AH")
      (by decide)).2.1.2.2 "CX" (by decide) (by decide)⟩

set_option maxHeartbeats 2000000 in
/-- C10: `div16` with divisor 0 calls `triggerInterrupt(0)`, whose only
state change is `IP ← (IP − 1) & 0xFFFF` (so IP = 0 wraps to 0xFFFF):
AX, DX and FLAGS are untouched, and — shown on the CPU's `DIV BX`
dispatch path (opcode 0xF7, ModR/M 0xF3) with BX = 0 — memory and the
halted flag are untouched as well. -/
theorem C10_div16_zero_divisor :
    (∀ r : RegState,
       div16 r 0 = .ok (set16 r "IP" ((get16 r "IP" : Int) - 1)) ∧
       get16 (set16 r "IP" ((get16 r "IP" : Int) - 1)) "AX" = get16 r "AX" ∧
       get16 (set16 r "IP" ((get16 r "IP" : Int) - 1)) "DX" = get16 r "DX" ∧
       get16 (set16 r "IP" ((get16 r "IP" : Int) - 1)) "FLAGS" = get16 r "FLAGS" ∧
       get16 (set16 r "IP" ((get16 r "IP" : Int) - 1)) "IP" =
         jsToUint16 ((get16 r "IP" : Int) - 1) ∧
       (get16 r "IP" = 0 →
         get16 (set16 r "IP" ((get16 r "IP" : Int) - 1)) "IP" = 0xFFFF)) ∧
    (∀ c : CPUState,
       readByte c.mem (get16 c.regs "CS") (get16 c.regs "IP") = 0xF3 →
       get16 c.regs "BX" = 0 →
       (execute c 0xF7).map CPUState.mem = .ok c.mem ∧
       (execute c 0xF7).map CPUState.halted = .ok c.halted) := by
  constructor
  · intro r
    refine ⟨by simp [div16, triggerInterrupt], ?_, ?_, ?_, ?_, ?_⟩
    · exact get16_set16_ne r "AX" "IP" _ (by decide)
    · exact get16_set16_ne r "DX" "IP" _ (by decide)
    · exact get16_set16_ne r "FLAGS" "IP" _ (by decide)
    · exact get16_set16_self r "IP" _
    · intro h
      rw [h, get16_set16_self]
      decide
  · intro c h1 h2
    have hbx : get16 (set16 c.regs "IP" ((get16 c.regs "IP" : Int) + 1)) "BX" =
        get16 c.regs "BX" := get16_set16_ne c.regs "BX" "IP" _ (by decide)
    have e3 : (243 : Nat) &&& 7 = 3 := by decide
    simp only [execute, fetchByte, h1]
    norm_num [regNames, e3]
    simp only [hbx, h2, group3Op, div16]
    simp [Except.map]

/-- C10 (witness): the zero-divisor trap at a machine whose IP is 0,
plus the memory-frame fact on the `DIV BX` dispatch path. -/
theorem C10_div16_zero_divisor_witness :
    div16 regsInit 0 = .ok (set16 regsInit "IP" ((get16 regsInit "IP" : Int) - 1)) ∧
    get16 (set16 regsInit "IP" ((get16 regsInit "IP" : Int) - 1)) "IP" = 0xFFFF ∧
    (execute (loadProgram [0xF3]) 0xF7).map CPUState.mem =
      .ok (loadProgram [0xF3]).mem :=
  ⟨(C10_div16_zero_divisor.1 regsInit).1,
   (C10_div16_zero_divisor.1 regsInit).2.2.2.2.2 (by decide),
   (C10_div16_zero_divisor.2 (loadProgram [0xF3]) (by decide) (by decide)).1⟩

/-- C3 (counterexample): with DX = 1, AX = 0 the 32-bit dividend is
0x10000; dividing by 1 gives quotient 0x10000 > 0xFFFF, and `div16`
throws `Error("Division Overflow")` to the caller instead of invoking
the interrupt handler. -/
theorem C3_claim_counterexample :
    div16 (set16 regsInit "DX" 1) 1 = .error "Division Overflow" := by
  rfl

/-- C3 (amended): `div16` with divisor 0 invokes the vector-0 interrupt
handler and does not throw (the ALU touches only the register file, so
the halted flag cannot be set); but when the divisor is nonzero and the
computed quotient exceeds 0xFFFF, `div16` throws
`Error("Division Overflow")` to the caller rather than invoking the
interrupt handler (only `idiv16` routes its overflow through interrupt
0). -/
theorem C3_div16_traps :
    (∀ r : RegState, div16 r 0 = .ok (triggerInterrupt r 0)) ∧
    (∀ (r : RegState) (d : Nat), d ≠ 0 → div16Quotient r d > 0xFFFF →
       div16 r d = .error "Division Overflow") := by
  constructor
  · intro r
    simp [div16]
  · intro r d hd hq
    simp only [div16Quotient] at hq
    simp [div16, hd, hq]

/-- C3 (witness): the zero-divisor branch at the reset register file and
the overflow branch at DX = 1, AX = 0, divisor 1. -/
theorem C3_div16_traps_witness :
    div16 regsInit 0 = .ok (triggerInterrupt regsInit 0) ∧
    div16 (set16 regsInit "DX" 1) 1 = .error "Division Overflow" :=
  ⟨C3_div16_traps.1 regsInit,
   C3_div16_traps.2 (set16 regsInit "DX" 1) 1 (by decide) (by decide)⟩

theorem readByte_writeByte_eq (m : Mem) (seg off val : Nat) :
    readByte (writeByte m seg off val) seg off = val % 256 := by
  simp [readByte, writeByte]

theorem readByte_writeByte_ne (m : Mem) (seg off seg2 off2 val : Nat)
    (h : getPhysicalAddress seg off ≠ getPhysicalAddress seg2 off2) :
    readByte (writeByte m seg2 off2 val) seg off = readByte m seg off := by
  simp [readByte, writeByte, h]

/-- C6: `push16(v)` sets SP to `(SP − 2) & 0xFFFF` and stores the low
byte of `v` at SS:SP and the high byte at SS:SP+1; an immediately
following `pop16()` returns `v` and restores SP to its pre-push
value. -/
theorem C6_push_pop (c : CPUState) (v : Nat) (hv : v ≤ 0xFFFF)
    (hsp : get16 c.regs "SP" ≤ 0xFFFF) :
    get16 (push16 c v).regs "SP" = jsToUint16 ((get16 c.regs "SP" : Int) - 2) ∧
    readByte (push16 c v).mem (get16 c.regs "SS")
      (jsToUint16 ((get16 c.regs "SP" : Int) - 2)) = v % 256 ∧
    readByte (push16 c v).mem (get16 c.regs "SS")
      (jsToUint16 ((get16 c.regs "SP" : Int) - 2) + 1) = v / 256 ∧
    (pop16 (push16 c v)).1 = v ∧
    get16 (pop16 (push16 c v)).2.regs "SP" = get16 c.regs "SP" := by
  have hsp1lt : jsToUint16 ((get16 c.regs "SP" : Int) - 2) < 65536 := jsToUint16_lt _
  simp only [push16, pop16]
  set sp0 := get16 c.regs "SP" with hsp0
  set ss0 := get16 c.regs "SS" with hss0
  set sp1 := jsToUint16 ((sp0 : Int) - 2) with hsp1
  have hSPval : get16 (set16 c.regs "SP" (sp1 : Int)) "SP" = sp1 := by
    rw [get16_set16_self, jsToUint16_ofNat]
    exact Nat.mod_eq_of_lt hsp1lt
  have hSSval : get16 (set16 c.regs "SP" (sp1 : Int)) "SS" = ss0 := by
    rw [get16_set16_ne _ _ _ _ (by decide)]
  have haddr : getPhysicalAddress ss0 sp1 ≠ getPhysicalAddress ss0 (sp1 + 1) := by
    unfold getPhysicalAddress
    omega
  have e256 : (2 : Nat) ^ 8 = 256 := by norm_num
  have hlow : readByte (writeByte (writeByte c.mem ss0 sp1 (v % 256)) ss0 (sp1 + 1)
      (v >>> 8 % 256)) ss0 sp1 = v % 256 := by
    rw [readByte_writeByte_ne _ _ _ _ _ _ haddr, readByte_writeByte_eq]
    omega
  have hhigh : readByte (writeByte (writeByte c.mem ss0 sp1 (v % 256)) ss0 (sp1 + 1)
      (v >>> 8 % 256)) ss0 (sp1 + 1) = v / 256 := by
    rw [readByte_writeByte_eq, Nat.shiftRight_eq_div_pow, e256]
    omega
  refine ⟨hSPval, ?_, ?_, ?_, ?_⟩
  · exact hlow
  · exact hhigh
  · simp only [hSPval, hSSval, hlow, hhigh]
    rw [lor_shift8 _ _ (by omega)]
    omega
  · simp only [hSPval]
    rw [get16_set16_self, hsp1]
    unfold jsToUint16
    omega

/-- C6 (witness): pushing 0xBEEF on the reset CPU (SP = 0 wraps to
0xFFFE, as in the repository's own stack test). -/
theorem C6_push_pop_witness :
    (0xBEEF : Nat) ≤ 0xFFFF ∧
    (get16 (push16 cpuInit 0xBEEF).regs "SP" =
       jsToUint16 ((get16 cpuInit.regs "SP" : Int) - 2) ∧
     readByte (push16 cpuInit 0xBEEF).mem (get16 cpuInit.regs "SS")
       (jsToUint16 ((get16 cpuInit.regs "SP" : Int) - 2)) = 0xBEEF % 256 ∧
     readByte (push16 cpuInit 0xBEEF).mem (get16 cpuInit.regs "SS")
       (jsToUint16 ((get16 cpuInit.regs "SP" : Int) - 2) + 1) = 0xBEEF / 256 ∧
     (pop16 (push16 cpuInit 0xBEEF)).1 = 0xBEEF ∧
     get16 (pop16 (push16 cpuInit 0xBEEF)).2.regs "SP" = get16 cpuInit.regs "SP") :=
  ⟨by decide, C6_push_pop cpuInit 0xBEEF (by decide) (by decide)⟩

/-- C7 (counterexample): the CPU state carries no `lastError` field —
its constructor creates exactly `registers`, `memory`, `alu` and
`halted`.  Stepping a HLT (0xF4) and stepping an unrecognised opcode
(0xFF) both end with `halted = true` and *identical* register files, so
no field of the CPU distinguishes the two halts (the memories differ
only in the program byte supplied as input). -/
theorem C7_claim_counterexample :
    (step (loadProgram [0xF4])).map CPUState.halted = .ok true ∧
    (step (loadProgram [0xFF])).map CPUState.halted = .ok true ∧
    (step (loadProgram [0xF4])).map CPUState.regs =
      (step (loadProgram [0xFF])).map CPUState.regs :=
  ⟨rfl, rfl, rfl⟩

set_option maxHeartbeats 4000000 in
theorem execute_unhandled (c : CPUState) (op : Nat) (hlt : op < 256)
    (hop : handledOpcode op = false) :
    execute c op = .ok { c with halted := true } := by
  interval_cases op <;> first
    | exact absurd hop (by decide)
    | rfl

set_option maxHeartbeats 2000000 in
/-- C7 (amended): when `step()` fetches *any* opcode byte without an
arm in the dispatch table (a `Uint8Array` cell is always a byte below
256), it sets `halted = true` and does not throw; but the CPU has no
`lastError` field — the resulting state is the old one with IP advanced
and `halted` set, nothing else — so a caller cannot distinguish a
decode-error halt from a HLT halt by inspecting the CPU. -/
theorem C7_unknown_opcode_halts (c : CPUState) (hh : c.halted = false)
    (hbyte : readByte c.mem (get16 c.regs "CS") (get16 c.regs "IP") < 256)
    (hop : handledOpcode
      (readByte c.mem (get16 c.regs "CS") (get16 c.regs "IP")) = false) :
    step c = .ok { c with regs := set16 c.regs "IP" ((get16 c.regs "IP" : Int) + 1),
                          halted := true } := by
  unfold step
  rw [if_neg (by simp [hh])]
  simp only [fetchByte]
  exact execute_unhandled _ _ hbyte hop

/-- C7 (witness): the unknown-opcode halt at the one-byte program
`[0xFF]` (0xFF has no dispatch arm). -/
theorem C7_unknown_opcode_halts_witness :
    step (loadProgram [0xFF]) =
      .ok { loadProgram [0xFF] with
              regs := set16 (loadProgram [0xFF]).regs "IP"
                ((get16 (loadProgram [0xFF]).regs "IP" : Int) + 1),
              halted := true } :=
  C7_unknown_opcode_halts (loadProgram [0xFF]) rfl (by decide) (by decide)

theorem symLookup_cons (lbl : String) (off : Nat) (table : SymTable) (L : String) :
    symLookup ((lbl, off) :: table) L = if lbl = L then some off else symLookup table L := by
  by_cases h : lbl = L <;> simp [symLookup, List.find?_cons, h]

theorem orElse_some_right (a : Option Nat) (y : Nat) (f : Unit → Option Nat) :
    (a.orElse (fun _ => some y)).orElse f = a.orElse (fun _ => some y) := by
  rcases a <;> simp [Option.orElse]

theorem orElse_none_right (a : Option Nat) (f : Unit → Option Nat) :
    (a.orElse (fun _ => none)).orElse f = a.orElse f := by
  rcases a <;> simp [Option.orElse]

theorem buildSymbolTableAux_ok (lines : List ParsedLine) :
    ∀ (table : SymTable) (off : Nat),
      (∀ l ∈ lines, ∀ mn, l.mnemonic = some mn →
        (instructionMap (detectInstructionKey mn l.operands)).isSome = true) →
      ∃ t, buildSymbolTableAux lines table off = .ok t := by
  induction lines with
  | nil => exact fun table off _ => ⟨table, rfl⟩
  | cons l rest ih =>
    intro table off h
    simp only [buildSymbolTableAux]
    rcases hmn : l.mnemonic with _ | mn
    · exact ih _ _ (fun x hx => h x (List.mem_cons_of_mem _ hx))
    · have hsome := h l (List.mem_cons_self _ _) mn hmn
      rcases hmap : instructionMap (detectInstructionKey mn l.operands) with _ | e
      · rw [hmap] at hsome
        simp at hsome
      · simp only [hmap]
        exact ih _ _ (fun x hx => h x (List.mem_cons_of_mem _ hx))

theorem buildSymbolTableAux_lookup (lines : List ParsedLine) :
    ∀ (table : SymTable) (off : Nat) (t : SymTable) (L : String),
      buildSymbolTableAux lines table off = .ok t →
      symLookup t L = (lastLabelOffset L lines off).orElse (fun _ => symLookup table L) := by
  induction lines with
  | nil =>
    intro table off t L h
    simp only [buildSymbolTableAux, Except.ok.injEq] at h
    subst h
    simp [lastLabelOffset, Option.orElse]
  | cons l rest ih =>
    intro table off t L h
    simp only [buildSymbolTableAux] at h
    simp only [lastLabelOffset]
    rcases hl : l.label with _ | lb <;> rcases hmn : l.mnemonic with _ | mn <;>
      simp only [hl, hmn] at h ⊢
    · -- no label, no mnemonic
      rw [ih table off t L h]
      simp only [lineSize, hmn, Nat.add_zero]
      have hc : ¬((none : Option String) = some L ∧ L ≠ "") := by
        rintro ⟨h1, _⟩; cases h1
      rw [if_neg hc, orElse_none_right]
    · -- no label, with mnemonic
      rcases hmap : instructionMap (detectInstructionKey mn l.operands) with _ | e <;>
        simp only [hmap] at h
      · cases h
      · rw [ih table (off + e.size) t L h]
        simp only [lineSize, hmn, hmap]
        have hc : ¬((none : Option String) = some L ∧ L ≠ "") := by
          rintro ⟨h1, _⟩; cases h1
        rw [if_neg hc, orElse_none_right]
    · -- label, no mnemonic
      simp only [lineSize, hmn, Nat.add_zero]
      by_cases hlb0 : lb = ""
      · rw [hlb0] at h ⊢
        rw [if_neg (by simp)] at h
        rw [ih table off t L h]
        have hc : ¬(some ("" : String) = some L ∧ L ≠ "") := by
          rintro ⟨h1, h2⟩; cases h1; exact h2 rfl
        rw [if_neg hc, orElse_none_right]
      · rw [if_pos hlb0] at h
        rw [ih ((lb, off) :: table) off t L h, symLookup_cons]
        by_cases hlbL : lb = L
        · have hc : (some lb = some L ∧ L ≠ "") := ⟨by rw [hlbL], by rw [← hlbL]; exact hlb0⟩
          rw [if_pos hlbL, if_pos hc, orElse_some_right]
        · have hc : ¬(some lb = some L ∧ L ≠ "") := by
            rintro ⟨h1, _⟩; exact hlbL (Option.some.inj h1)
          rw [if_neg hlbL, if_neg hc, orElse_none_right]
    · -- label and mnemonic
      rcases hmap : instructionMap (detectInstructionKey mn l.operands) with _ | e <;>
        simp only [hmap] at h
      · cases h
      · simp only [lineSize, hmn, hmap]
        by_cases hlb0 : lb = ""
        · rw [hlb0] at h ⊢
          rw [if_neg (by simp)] at h
          rw [ih table (off + e.size) t L h]
          have hc : ¬(some ("" : String) = some L ∧ L ≠ "") := by
            rintro ⟨h1, h2⟩; cases h1; exact h2 rfl
          rw [if_neg hc, orElse_none_right]
        · rw [if_pos hlb0] at h
          rw [ih ((lb, off) :: table) (off + e.size) t L h, symLookup_cons]
          by_cases hlbL : lb = L
          · have hc : (some lb = some L ∧ L ≠ "") := ⟨by rw [hlbL], by rw [← hlbL]; exact hlb0⟩
            rw [if_pos hlbL, if_pos hc, orElse_some_right]
          · have hc : ¬(some lb = some L ∧ L ≠ "") := by
              rintro ⟨h1, _⟩; exact hlbL (Option.some.inj h1)
            rw [if_neg hlbL, if_neg hc, orElse_none_right]

/-- C2 (counterexample): a parsed-line list with the label `L1` on two
distinct lines assembles without error — `buildSymbolTable` records the
later offset in front of the earlier one instead of failing. -/
theorem C2_claim_counterexample :
    buildSymbolTable
        [{ label := some "L1", mnemonic := some "NOP", operands := [] },
         { label := some "L1", mnemonic := some "HLT", operands := [] }] =
      .ok [("L1", 1), ("L1", 0)] := rfl

/-- C2 (amended): the symbol-table pass never rejects duplicate labels:
it succeeds whenever every mnemonic's key is known, and the table it
builds resolves each label to the running offset of that label's *last*
(truthy) occurrence — later duplicates silently shadow earlier ones. -/
theorem C2_duplicate_labels :
    (∀ lines : List ParsedLine,
       (∀ l ∈ lines, ∀ mn, l.mnemonic = some mn →
         (instructionMap (detectInstructionKey mn l.operands)).isSome = true) →
       ∃ t, buildSymbolTable lines = .ok t) ∧
    (∀ (lines : List ParsedLine) (t : SymTable) (L : String),
       buildSymbolTable lines = .ok t →
       symLookup t L = lastLabelOffset L lines 0) := by
  constructor
  · intro lines h
    exact buildSymbolTableAux_ok lines [] 0 h
  · intro lines t L h
    have h2 := buildSymbolTableAux_lookup lines [] 0 t L h
    have he : symLookup ([] : SymTable) L = none := rfl
    rw [he] at h2
    rw [h2]
    rcases lastLabelOffset L lines 0 with _ | x <;> simp [Option.orElse]

/-- C2 (witness): the amended claim at the duplicate-`L1` input: the
pass succeeds and `L1` resolves to offset 1, its last occurrence. -/
theorem C2_duplicate_labels_witness :
    (∃ t, buildSymbolTable
        [{ label := some "L1", mnemonic := some "NOP", operands := [] },
         { label := some "L1", mnemonic := some "HLT", operands := [] }] = .ok t) ∧
    symLookup [("L1", 1), ("L1", 0)] "L1" =
      lastLabelOffset "L1"
        [{ label := some "L1", mnemonic := some "NOP", operands := [] },
         { label := some "L1", mnemonic := some "HLT", operands := [] }] 0 :=
  ⟨C2_duplicate_labels.1 _
     (by intro l hl mn hmn
         fin_cases hl <;> (cases hmn; decide)),
   C2_duplicate_labels.2 _ [("L1", 1), ("L1", 0)] "L1" (by rfl)⟩

/-- C1 (counterexample): the assembler does not emit
`B8 05 00 05 02 00 F4` for this source.  Its table encodes
`ADD AX, 2` through the group form `ADD_REG_IMM = 0x81 /0` (4 bytes),
so the output is the 8-byte sequence `B8 05 00 81 C0 02 00 F4`. -/
theorem C1_claim_counterexample :
    (assemble "MOV AX, 5\nADD AX, 2\nHLT").map Prod.snd ≠
      .ok [0xB8, 0x05, 0x00, 0x05, 0x02, 0x00, 0xF4] := by
  intro h
  rw [show (assemble "MOV AX, 5\nADD AX, 2\nHLT").map Prod.snd =
        .ok [0xB8, 0x05, 0x00, 0x81, 0xC0, 0x02, 0x00, 0xF4] from rfl] at h
  exact absurd (Except.ok.inj h) (by decide)

/-- C1 (amended): `MOV AX, 5 / ADD AX, 2 / HLT` assembles to
`B8 05 00 81 C0 02 00 F4`; and executing the hand-assembled bytes
`B8 05 00 05 02 00 F4` (the demo driver's program, using the 0x05
`ADD AX, imm16` form the CPU implements) from reset runs to the halted
state in three steps with AX = 0x0007 and IP = 7. -/
theorem C1_assemble_and_run :
    (assemble "MOV AX, 5\nADD AX, 2\nHLT").map Prod.snd =
      .ok [0xB8, 0x05, 0x00, 0x81, 0xC0, 0x02, 0x00, 0xF4] ∧
    (run 3 (loadProgram [0xB8, 0x05, 0x00, 0x05, 0x02, 0x00, 0xF4])).map
        (fun c => (get16 c.regs "AX", get16 c.regs "IP", c.halted)) =
      .ok (0x0007, 7, true) :=
  ⟨rfl, rfl⟩
